import Mathlib

/-
Shallow embedding of the joycam point-and-shoot camera application
(source: cam.py).  The program is a single-file pygame/picamera2
application; its core is a screen-mode state machine driven by a
polling dispatch loop.  We embed the state-mutating callbacks as pure
functions over an explicit application-state record, the filesystem as
a directory listing (list of filenames, each a list of characters),
and the camera/display collaborators as abstract fallible operations.
Machine integers are modelled as Int/Nat; Python's `%` on ints with a
positive modulus coincides with Int.emod.
-/

namespace Joycam

/-- The `Screen` enumeration from cam.py (class Screen(Enum)): REFRESH is a
fake screen mode used only to force a refresh of the display. -/
inductive Screen where
  | REFRESH
  | VIEW
  | DELETE
  | NO_IMG
  | VIEWFINDER
  | SETTINGS_STORAGE
  | SETTINGS_SIZE
  | SETTINGS_EFFECT
  | SETTINGS_ISO
  | SETTINGS_EV
  | QUIT
deriving DecidableEq, Repr

/-- The numeric value of each Screen enum member, as declared in cam.py. -/
def Screen.value : Screen → Int
  | .REFRESH => -1
  | .VIEW => 0
  | .DELETE => 1
  | .NO_IMG => 2
  | .VIEWFINDER => 3
  | .SETTINGS_STORAGE => 4
  | .SETTINGS_SIZE => 5
  | .SETTINGS_EFFECT => 6
  | .SETTINGS_ISO => 7
  | .SETTINGS_EV => 8
  | .QUIT => 9

/-- Python's `Screen(v)` enum lookup: the member with value `v`, or a
ValueError (None) when no member has that value. -/
def Screen.ofValue : Int → Option Screen
  | -1 => some .REFRESH
  | 0 => some .VIEW
  | 1 => some .DELETE
  | 2 => some .NO_IMG
  | 3 => some .VIEWFINDER
  | 4 => some .SETTINGS_STORAGE
  | 5 => some .SETTINGS_SIZE
  | 6 => some .SETTINGS_EFFECT
  | 7 => some .SETTINGS_ISO
  | 8 => some .SETTINGS_EV
  | 9 => some .QUIT
  | _ => none

/-- The process-wide mutable globals of cam.py that the dispatch engine
reads and writes (screen modes, setting indices, image cursors, the
in-memory last-loaded image `scaled` modelled as a Bool flag, and the
digital zoom flag). -/
structure AppState where
  screenMode : Screen
  screenModePrior : Screen
  settingMode : Int
  storeMode : Int
  storeModePrior : Int
  sizeMode : Int
  fxMode : Int
  isoMode : Int
  evMode : Int
  loadIdx : Int
  saveIdx : Int
  scaled : Bool
  zoomed : Bool
deriving DecidableEq, Repr

/-- Initial values of the globals (cam.py "Global stuff" section). -/
def initState : AppState where
  screenMode := .VIEWFINDER
  screenModePrior := .REFRESH
  settingMode := 4
  storeMode := 0
  storeModePrior := -1
  sizeMode := 0
  fxMode := 0
  isoMode := 0
  evMode := 0
  loadIdx := -1
  saveIdx := -1
  scaled := false
  zoomed := false

/-- The ordered tuple `acceptableModes` from settingCallback: the modes one
can cycle through with the prev/next setting keys.  Storage and Effect
settings are omitted (they do nothing), Delete confirmation and No Image
are special screens one cannot navigate to normally. -/
def acceptableModes : List Screen :=
  [.VIEW, .VIEWFINDER, .SETTINGS_EV, .SETTINGS_ISO, .SETTINGS_SIZE, .QUIT]

theorem emod6_toNat_lt (a : Int) : (a.emod 6).toNat < 6 := by
  have h1 : a.emod 6 < 6 := Int.emod_lt_of_pos a (by norm_num)
  have h2 : 0 ≤ a.emod 6 := Int.emod_nonneg a (by norm_num)
  omega

/-- settingCallback(n) from cam.py: if the current screen mode is not in
acceptableModes, return (silent no-op); otherwise take the mode's position
in the tuple, add n, reduce mod the tuple length (6) and switch to the
mode at that position.  Only the global screenMode is assigned. -/
def settingCallback (n : Int) (s : AppState) : AppState :=
  if s.screenMode ∈ acceptableModes then
    let position : Int := acceptableModes.indexOf s.screenMode
    let position := position + n
    -- position %= len(acceptableModes); the tuple has length 6
    let position := position.emod 6
    { s with screenMode := acceptableModes.get ⟨position.toNat, emod6_toNat_lt _⟩ }
  else
    s

/-- Claim C1: for every ScreenMode, if it is not a member of the ordered
subset acceptableModes = (View, Viewfinder, SettingsEv, SettingsIso,
SettingsSize, Quit) then settingCallback n leaves the current screen mode
unchanged (silent no-op, the whole state is returned untouched); if it is
the member at position p, then for every integer step n the new current
mode is the subset member at position (p + n) mod 6 and no other state
field is changed. -/
theorem C1_settingCallback_cycle (s : AppState) (n : Int) :
    (s.screenMode ∉ acceptableModes → settingCallback n s = s) ∧
    (∀ (p : Nat) (hp : p < 6), acceptableModes.get ⟨p, hp⟩ = s.screenMode →
      settingCallback n s =
        { s with screenMode :=
            acceptableModes.get ⟨(((p : Int) + n).emod 6).toNat, emod6_toNat_lt _⟩ }) := by
  constructor
  · intro h
    simp [settingCallback, h]
  · intro p hp hpm
    interval_cases p <;>
      · have hm := hpm.symm
        simp only [acceptableModes, List.get] at hm
        simp [settingCallback, hm, acceptableModes, List.indexOf, List.findIdx, List.findIdx.go]
        try rfl

/-- Witness for C1 at mode VIEWFINDER (position 1) with step 4. -/
theorem C1_settingCallback_cycle_witness :
    acceptableModes.get ⟨1, by decide⟩ = initState.screenMode ∧
    settingCallback 4 initState =
      { initState with screenMode :=
          acceptableModes.get ⟨((((1 : Nat) : Int) + 4).emod 6).toNat, emod6_toNat_lt _⟩ } :=
  ⟨rfl, (C1_settingCallback_cycle initState 4).2 1 (by decide) rfl⟩

/- ----------------------------------------------------------------------
showNextImage (cam.py): wrapping search for the next existing image file.
The directory is abstracted by the predicate `p`, where `p i` states that
the file `<path>/IMG_<%04d i>.JPG` exists (os.path.exists).  The source
loop is unbounded (`while True`); we embed its body as a fuel-indexed
iteration: `searchLoop p dir n fuel` is the result of running up to
`fuel` iterations of the loop from cursor `n`, returning `some m` when
the loop breaks at an existing index `m` within that many iterations and
`none` when it has not yet exited.  The unbounded source loop terminates
with value m iff searchLoop returns `some m` for some fuel.
---------------------------------------------------------------------- -/

/-- One pass of the cursor update in showNextImage's loop:
n += direction; if n > 9999: n = 0; elif n < 0: n = 9999. -/
def wrapStep (direction : Int) (n : Int) : Int :=
  let m := n + direction
  if m > 9999 then 0 else if m < 0 then 9999 else m

/-- The loop of showNextImage, fuel-indexed (see the comment block above). -/
def searchLoop (p : Int → Bool) (direction : Int) (n : Int) : Nat → Option Int
  | 0 => none
  | fuel + 1 =>
    let m := wrapStep direction n
    if p m then some m else searchLoop p direction m fuel

/-- showNextImage(direction) updates the load cursor: on break the loop
calls showImage(n), which sets loadIdx := n (and screenMode := VIEW,
screenModePrior := REFRESH).  This function returns the new loadIdx,
`none` meaning the loop has not exited within `fuel` iterations. -/
def showNextImageIdx (p : Int → Bool) (direction : Int) (loadIdx : Int)
    (fuel : Nat) : Option Int :=
  searchLoop p direction loadIdx fuel

theorem searchLoop_succ (p : Int → Bool) (direction n : Int) (fuel : Nat) :
    searchLoop p direction n (fuel + 1) =
      if p (wrapStep direction n) then some (wrapStep direction n)
      else searchLoop p direction (wrapStep direction n) fuel := rfl

/-- Claim C2 evidence: when no image file exists, the loop body never hits
the break, so no number of iterations makes the source's `while True`
loop exit: the code hangs rather than reaching a no-match exit. -/
theorem C2_searchLoop_never_exits (p : Int → Bool) (hp : ∀ i, p i = false)
    (direction : Int) : ∀ (fuel : Nat) (n : Int),
    searchLoop p direction n fuel = none := by
  intro fuel
  induction fuel with
  | zero => intro n; rfl
  | succ f ih =>
    intro n
    rw [searchLoop_succ, hp, ih]
    simp

/-- Witness for C2: a run of 10000 iterations from cursor 0 in an empty
directory, going forward, still has not exited. -/
theorem C2_searchLoop_never_exits_witness :
    searchLoop (fun _ => false) 1 0 10000 = none :=
  C2_searchLoop_never_exits (fun _ => false) (fun _ => rfl) 1 10000 0

theorem bool_ne_true {b : Bool} (h : ¬ b = true) : b = false := by
  cases b <;> simp_all

theorem wrapStep_one (n : Nat) (h : n ≤ 9999) :
    wrapStep 1 (n : Int) = (((n + 1) % 10000 : Nat) : Int) := by
  simp only [wrapStep]
  split_ifs <;> omega

theorem wrapStep_range (direction n : Int) (hd : direction = 1 ∨ direction = -1)
    (h0 : 0 ≤ n) (h1 : n ≤ 9999) :
    0 ≤ wrapStep direction n ∧ wrapStep direction n ≤ 9999 := by
  simp only [wrapStep]
  rcases hd with h | h <;> subst h <;> split_ifs <;> omega

/-- Going forward, the loop returns the first cursor value (in the cyclic
order n+1, n+2, ..., wrapping 9999 to 0) at which a file exists. -/
theorem searchLoop_fwd_trace (p : Int → Bool) :
    ∀ (k : Nat), 1 ≤ k → ∀ (n : Nat) (fuel : Nat), n ≤ 9999 → k ≤ fuel →
    (∀ j : Nat, 1 ≤ j → j < k → p (((n + j) % 10000 : Nat) : Int) = false) →
    p (((n + k) % 10000 : Nat) : Int) = true →
    searchLoop p 1 (n : Int) fuel = some (((n + k) % 10000 : Nat) : Int) := by
  intro k
  induction k with
  | zero => omega
  | succ k ih =>
    intro _ n fuel hn hkf hmin hhit
    obtain ⟨f, rfl⟩ : ∃ f, fuel = f + 1 := ⟨fuel - 1, by omega⟩
    rw [searchLoop_succ, wrapStep_one n hn]
    by_cases hk : k = 0
    · subst hk
      rw [hhit]
      simp
    · have h1 : p (((n + 1) % 10000 : Nat) : Int) = false := hmin 1 le_rfl (by omega)
      rw [h1]
      simp only [Bool.false_eq_true, if_false]
      have harith : ∀ j : Nat, ((n + 1) % 10000 + j) % 10000 = (n + (1 + j)) % 10000 := by
        intro j; omega
      have hres := ih (by omega) ((n + 1) % 10000) f (by omega) (by omega)
        (fun j hj1 hjk => by rw [harith j]; exact hmin (1 + j) (by omega) (by omega))
        (by rw [harith k]; have : n + (1 + k) = n + (k + 1) := by omega
            rw [this]; exact hhit)
      rw [hres]
      have : ((n + 1) % 10000 + k) % 10000 = (n + (k + 1)) % 10000 := by omega
      rw [this]

/-- Correctness of the forward search from a cursor n in 0..9999, provided
at least one image file exists: the loop exits within 10000 iterations at
the smallest existing index strictly greater than n, or, if no existing
index exceeds n, at the smallest existing index overall (wrap past 9999
to 0). -/
theorem searchFwd_spec (p : Int → Bool) (n : Nat) (hn : n ≤ 9999)
    (hex : ∃ i : Nat, i ≤ 9999 ∧ p (i : Int) = true) :
    ∃ r : Nat, r ≤ 9999 ∧ searchLoop p 1 (n : Int) 10000 = some (r : Int) ∧
      p (r : Int) = true ∧
      ((∃ i : Nat, i ≤ 9999 ∧ n < i ∧ p (i : Int) = true) →
        n < r ∧ ∀ i : Nat, i ≤ 9999 → n < i → p (i : Int) = true → r ≤ i) ∧
      ((¬ ∃ i : Nat, i ≤ 9999 ∧ n < i ∧ p (i : Int) = true) →
        ∀ i : Nat, i ≤ 9999 → p (i : Int) = true → r ≤ i) := by
  classical
  have hkex : ∃ k : Nat, 1 ≤ k ∧ k ≤ 10000 ∧ p (((n + k) % 10000 : Nat) : Int) = true := by
    obtain ⟨i, hi, hpi⟩ := hex
    by_cases hgt : n < i
    · refine ⟨i - n, by omega, by omega, ?_⟩
      have : (n + (i - n)) % 10000 = i := by omega
      rw [this]; exact hpi
    · refine ⟨i + 10000 - n, by omega, by omega, ?_⟩
      have : (n + (i + 10000 - n)) % 10000 = i := by omega
      rw [this]; exact hpi
  set k := Nat.find hkex with hkdef
  obtain ⟨hk1, hk10000, hkp⟩ := Nat.find_spec hkex
  have hmin : ∀ j : Nat, 1 ≤ j → j < k → p (((n + j) % 10000 : Nat) : Int) = false := by
    intro j hj1 hjk
    have := Nat.find_min hkex hjk
    push_neg at this
    exact bool_ne_true (this hj1 (by omega))
  refine ⟨(n + k) % 10000, by omega, ?_, hkp, ?_, ?_⟩
  · exact searchLoop_fwd_trace p k hk1 n 10000 hn (by omega) hmin hkp
  · rintro ⟨i, hi, hni, hpi⟩
    have hki : k ≤ i - n := by
      apply Nat.find_min' hkex
      refine ⟨by omega, by omega, ?_⟩
      have : (n + (i - n)) % 10000 = i := by omega
      rw [this]; exact hpi
    have hr : (n + k) % 10000 = n + k := by omega
    constructor
    · omega
    · intro j hj hnj hpj
      have hkj : k ≤ j - n := by
        apply Nat.find_min' hkex
        refine ⟨by omega, by omega, ?_⟩
        have : (n + (j - n)) % 10000 = j := by omega
        rw [this]; exact hpj
      omega
  · intro hng
    push_neg at hng
    have hklb : 10000 - n ≤ k := by
      by_contra hlt
      push_neg at hlt
      have h1 : (n + k) % 10000 = n + k := by omega
      exact (hng ((n + k) % 10000) (by omega) (by omega)) hkp
    intro i hi hpi
    have hile : i ≤ n := by
      by_contra hgt
      push_neg at hgt
      exact (hng i hi hgt) hpi
    have hki : k ≤ i + 10000 - n := by
      apply Nat.find_min' hkex
      refine ⟨by omega, by omega, ?_⟩
      have : (n + (i + 10000 - n)) % 10000 = i := by omega
      rw [this]; exact hpi
    omega

theorem wrapStep_reflect (n : Int) (h0 : 0 ≤ n) (h1 : n ≤ 9999) :
    wrapStep (-1) n = 9999 - wrapStep 1 (9999 - n) := by
  simp only [wrapStep]
  split_ifs <;> omega

/-- A backward search mirrors a forward search on the index-reversed
directory. -/
theorem searchLoop_reflect (p : Int → Bool) :
    ∀ (fuel : Nat) (n : Int), 0 ≤ n → n ≤ 9999 →
    searchLoop p (-1) n fuel =
      (searchLoop (fun i => p (9999 - i)) 1 (9999 - n) fuel).map (fun r => 9999 - r) := by
  intro fuel
  induction fuel with
  | zero => intros; rfl
  | succ f ih =>
    intro n h0 h1
    rw [searchLoop_succ, searchLoop_succ, wrapStep_reflect n h0 h1]
    have hrange := wrapStep_range 1 (9999 - n) (Or.inl rfl) (by omega) (by omega)
    by_cases hp : p (9999 - wrapStep 1 (9999 - n)) = true
    · simp [hp]
    · rw [bool_ne_true hp]
      simp only [Bool.false_eq_true, if_false]
      have := ih (9999 - wrapStep 1 (9999 - n)) (by omega) (by omega)
      rw [this]
      have harg : 9999 - (9999 - wrapStep 1 (9999 - n)) = wrapStep 1 (9999 - n) := by omega
      rw [harg]

/-- Correctness of the backward search: symmetric to searchFwd_spec; the
loop exits at the largest existing index strictly below n, or, if none,
at the largest existing index overall (wrap past 0 to 9999). -/
theorem searchBack_spec (p : Int → Bool) (n : Nat) (hn : n ≤ 9999)
    (hex : ∃ i : Nat, i ≤ 9999 ∧ p (i : Int) = true) :
    ∃ r : Nat, r ≤ 9999 ∧ searchLoop p (-1) (n : Int) 10000 = some (r : Int) ∧
      p (r : Int) = true ∧
      ((∃ i : Nat, i ≤ 9999 ∧ i < n ∧ p (i : Int) = true) →
        r < n ∧ ∀ i : Nat, i ≤ 9999 → i < n → p (i : Int) = true → i ≤ r) ∧
      ((¬ ∃ i : Nat, i ≤ 9999 ∧ i < n ∧ p (i : Int) = true) →
        ∀ i : Nat, i ≤ 9999 → p (i : Int) = true → i ≤ r) := by
  have hq : ∀ i : Nat, i ≤ 9999 → (9999 : Int) - ((9999 - i : Nat) : Int) = (i : Int) := by
    intro i hi
    omega
  have hex2 : ∃ i : Nat, i ≤ 9999 ∧ (fun j : Int => p (9999 - j)) (i : Int) = true := by
    obtain ⟨i, hi, hpi⟩ := hex
    refine ⟨9999 - i, by omega, ?_⟩
    show p ((9999 : Int) - ((9999 - i : Nat) : Int)) = true
    rw [hq i hi]
    exact hpi
  obtain ⟨r2, hr2le, hr2run, hr2p, hr2A, hr2B⟩ :=
    searchFwd_spec (fun j : Int => p (9999 - j)) (9999 - n) (by omega) hex2
  have hr2p' : p (((9999 - r2 : Nat)) : Int) = true := by
    have harg : ((9999 - r2 : Nat) : Int) = 9999 - (r2 : Int) := by omega
    rw [harg]
    exact hr2p
  refine ⟨9999 - r2, by omega, ?_, hr2p', ?_, ?_⟩
  · rw [searchLoop_reflect p 10000 (n : Int) (by omega) (by omega)]
    have hcast : (9999 : Int) - (n : Int) = ((9999 - n : Nat) : Int) := by omega
    rw [hcast, hr2run]
    show some ((9999 : Int) - (r2 : Int)) = some (((9999 - r2 : Nat)) : Int)
    congr 1
    omega
  · rintro ⟨i, hi, hin, hpi⟩
    have hA := hr2A ⟨9999 - i, by omega, by omega, by rw [hq i hi]; exact hpi⟩
    obtain ⟨hlt, hmin⟩ := hA
    constructor
    · omega
    · intro j hj hjn hpj
      have := hmin (9999 - j) (by omega) (by omega) (by rw [hq j hj]; exact hpj)
      omega
  · intro hng
    have hng2 : ¬ ∃ i : Nat, i ≤ 9999 ∧ (9999 - n) < i ∧
        (fun j : Int => p (9999 - j)) (i : Int) = true := by
      rintro ⟨i, hi, hgt, hpi⟩
      have hpi2 : p (((9999 - i : Nat)) : Int) = true := by
        have harg : ((9999 - i : Nat) : Int) = 9999 - (i : Int) := by omega
        rw [harg]
        exact hpi
      exact hng ⟨9999 - i, by omega, by omega, hpi2⟩
    have hB := hr2B hng2
    intro i hi hpi
    have := hB (9999 - i) (by omega) (by rw [hq i hi]; exact hpi)
    omega

/-- Claim C3: for every load cursor n in 0..9999, if at least one image
file IMG_dddd.JPG exists in the active storage directory (existence of the
file for index i abstracted as `p i`), then showNextImage(+1) exits its
loop at the smallest existing index strictly greater than n — wrapping
past 9999 to 0, i.e. at the smallest existing index overall when no
existing index exceeds n — and showNextImage(-1) exits at the largest
existing index strictly less than n — wrapping past 0 to 9999 — and the
load cursor loadIdx is set to that index (showNextImageIdx returns the
new loadIdx). -/
theorem C3_showNextImage_adjacent (p : Int → Bool) (n : Nat) (hn : n ≤ 9999)
    (hex : ∃ i : Nat, i ≤ 9999 ∧ p (i : Int) = true) :
    (∃ r : Nat, r ≤ 9999 ∧ showNextImageIdx p 1 (n : Int) 10000 = some (r : Int) ∧
      p (r : Int) = true ∧
      ((∃ i : Nat, i ≤ 9999 ∧ n < i ∧ p (i : Int) = true) →
        n < r ∧ ∀ i : Nat, i ≤ 9999 → n < i → p (i : Int) = true → r ≤ i) ∧
      ((¬ ∃ i : Nat, i ≤ 9999 ∧ n < i ∧ p (i : Int) = true) →
        ∀ i : Nat, i ≤ 9999 → p (i : Int) = true → r ≤ i)) ∧
    (∃ r : Nat, r ≤ 9999 ∧ showNextImageIdx p (-1) (n : Int) 10000 = some (r : Int) ∧
      p (r : Int) = true ∧
      ((∃ i : Nat, i ≤ 9999 ∧ i < n ∧ p (i : Int) = true) →
        r < n ∧ ∀ i : Nat, i ≤ 9999 → i < n → p (i : Int) = true → i ≤ r) ∧
      ((¬ ∃ i : Nat, i ≤ 9999 ∧ i < n ∧ p (i : Int) = true) →
        ∀ i : Nat, i ≤ 9999 → p (i : Int) = true → i ≤ r)) :=
  ⟨searchFwd_spec p n hn hex, searchBack_spec p n hn hex⟩

/-- A sample directory for the C3 witness: exactly IMG_0003.JPG and
IMG_0007.JPG exist. -/
def sampleDir : Int → Bool := fun i => i == 3 || i == 7

/-- Witness for C3 at cursor 5 in sampleDir. -/
theorem C3_showNextImage_adjacent_witness :
    ((5 : Nat) ≤ 9999 ∧ (∃ i : Nat, i ≤ 9999 ∧ sampleDir (i : Int) = true)) ∧
    ((∃ r : Nat, r ≤ 9999 ∧
        showNextImageIdx sampleDir 1 ((5 : Nat) : Int) 10000 = some (r : Int) ∧
      sampleDir (r : Int) = true ∧
      ((∃ i : Nat, i ≤ 9999 ∧ 5 < i ∧ sampleDir (i : Int) = true) →
        5 < r ∧ ∀ i : Nat, i ≤ 9999 → 5 < i → sampleDir (i : Int) = true → r ≤ i) ∧
      ((¬ ∃ i : Nat, i ≤ 9999 ∧ 5 < i ∧ sampleDir (i : Int) = true) →
        ∀ i : Nat, i ≤ 9999 → sampleDir (i : Int) = true → r ≤ i)) ∧
    (∃ r : Nat, r ≤ 9999 ∧
        showNextImageIdx sampleDir (-1) ((5 : Nat) : Int) 10000 = some (r : Int) ∧
      sampleDir (r : Int) = true ∧
      ((∃ i : Nat, i ≤ 9999 ∧ i < 5 ∧ sampleDir (i : Int) = true) →
        r < 5 ∧ ∀ i : Nat, i ≤ 9999 → i < 5 → sampleDir (i : Int) = true → i ≤ r) ∧
      ((¬ ∃ i : Nat, i ≤ 9999 ∧ i < 5 ∧ sampleDir (i : Int) = true) →
        ∀ i : Nat, i ≤ 9999 → sampleDir (i : Int) = true → i ≤ r))) :=
  ⟨⟨by norm_num, ⟨3, by norm_num, by decide⟩⟩,
    C3_showNextImage_adjacent sampleDir 5 (by norm_num) ⟨3, by norm_num, by decide⟩⟩

/- ----------------------------------------------------------------------
setIsoMode / setEvMode (cam.py): the camera collaborator (picamera2
controls) and the settings-screen button objects are abstracted as
fallible operations; `.error ()` models a raised Python exception.
---------------------------------------------------------------------- -/

/-- Abstract camera/button collaborator used by setIsoMode and setEvMode:
each field is one of the statements in their try blocks that can raise
(setting a camera control, or updating the button icons / indicator rect,
which "sometimes break with a key error" per the source comment). -/
structure CamApply where
  setGain : Int → Except Unit Unit
  setAeEnable : Bool → Except Unit Unit
  setButtonsIso : Int → Except Unit Unit
  setExposureValue : Int → Except Unit Unit
  setButtonsEv : Int → Except Unit Unit

/-- The statements of setIsoMode's try block that follow the assignment
`isoMode = n`: if isoMode > 0 set camera.controls.AnalogueGain; set
camera.controls.AeEnable = (isoMode == 0); update the ISO screen's
buttons (setBg and the indicator rect, both reading isoData[isoMode]). -/
def setIsoModeTry (cam : CamApply) (n : Int) : Except Unit Unit := do
  if n > 0 then cam.setGain n
  cam.setAeEnable (decide (n = 0))
  cam.setButtonsIso n

/-- setIsoMode(n) from cam.py.  The first statement of the try block is
the assignment `isoMode = n`; every operation that can raise comes after
it, and the bare `except:` only prints "Could not change ISO mode".  The
result is (isoMode after the call, whether a failure was caught and
logged).  The pre-call isoMode is received but — as in the source — never
restored. -/
def setIsoMode (cam : CamApply) (isoMode n : Int) : Int × Bool :=
  match setIsoModeTry cam n with
  | .ok _ => (n, false)
  | .error _ => (n, true)

/-- The statements of setEvMode's try block that follow the assignment
`evMode = n`: set camera.controls.ExposureValue; set AeEnable = True;
update the EV screen's buttons (setBg and the indicator rect, both
reading evData[evMode]). -/
def setEvModeTry (cam : CamApply) (n : Int) : Except Unit Unit := do
  cam.setExposureValue n
  cam.setAeEnable true
  cam.setButtonsEv n

/-- setEvMode(n) from cam.py, built exactly like setIsoMode: assignment
first, fallible applies after, bare except that prints "Could not change
EV Mode". -/
def setEvMode (cam : CamApply) (evMode n : Int) : Int × Bool :=
  match setEvModeTry cam n with
  | .ok _ => (n, false)
  | .error _ => (n, true)

/-- A camera collaborator that rejects every setting change. -/
def rejectingCam : CamApply where
  setGain := fun _ => .error ()
  setAeEnable := fun _ => .error ()
  setButtonsIso := fun _ => .error ()
  setExposureValue := fun _ => .error ()
  setButtonsEv := fun _ => .error ()

/-- Counterexample to C5 as stated: with isoMode = 0 before the call,
requesting index 3 while the camera rejects the setting is caught and
logged (second component true), yet isoMode after the call is 3 — not the
pre-attempt 0 — and likewise for evMode. -/
theorem C5_counterexample :
    setIsoMode rejectingCam 0 3 = (3, true) ∧
    setEvMode rejectingCam 0 3 = (3, true) ∧ (3 : Int) ≠ 0 := by
  refine ⟨rfl, rfl, by norm_num⟩

/-- Claim C5 amended: when the camera collaborator rejects a requested
ISO/EV setting, setIsoMode / setEvMode catch and log the failure (the
call returns instead of raising), but the in-memory isoMode / evMode ends
up at the requested index n — the assignment precedes the fallible apply
step — rather than at its pre-attempt value. -/
theorem C5_set_modes_keep_requested (cam : CamApply) (isoPrev evPrev n : Int) :
    (setIsoMode cam isoPrev n).1 = n ∧ (setEvMode cam evPrev n).1 = n := by
  constructor
  · unfold setIsoMode
    cases setIsoModeTry cam n <;> rfl
  · unfold setEvMode
    cases setEvModeTry cam n <;> rfl

/- ----------------------------------------------------------------------
Key dispatch: the KEYDOWN branch of the main loop.
---------------------------------------------------------------------- -/

/-- The pygame key constants cam.py binds; `other` stands for any other
key code. -/
inductive Key where
  | K_LEFT
  | K_RIGHT
  | K_RETURN
  | K_a
  | K_z
  | K_UP
  | K_DOWN
  | other (code : Nat)
deriving DecidableEq, Repr

/-- A Python value bound as a callback argument (callbackTuple[1]); `none`
makes the dispatcher call the callback with no argument. -/
inductive PyVal where
  | none
  | int (i : Int)
  | bool (b : Bool)
deriving DecidableEq, Repr

/-- The callback functions of cam.py that key and touch dispatch can
invoke; an invocation is a pair of a callback and its argument value. -/
inductive Cb where
  | imageCallback
  | deleteCallback
  | viewCallback
  | settingCallback
  | isoCallback
  | evCallback
  | fxCallback
  | sizeModeCallback
  | storeModeCallback
  | doneCallback
  | quitCallback
  | zoomModeCallback
  | takePicture
deriving DecidableEq, Repr

/-- The per-screen key→(callback, value) dict `controls` from cam.py. -/
def controlsMap (m : Screen) (k : Key) : Option (Cb × PyVal) :=
  match m, k with
  | .VIEW, .K_LEFT => some (.imageCallback, .int (-1))
  | .VIEW, .K_RIGHT => some (.imageCallback, .int 1)
  | .VIEW, .K_RETURN => some (.imageCallback, .int 0)
  | .DELETE, .K_LEFT => some (.deleteCallback, .bool true)
  | .DELETE, .K_RIGHT => some (.deleteCallback, .bool false)
  | .VIEWFINDER, .K_a => some (.takePicture, .none)
  | .VIEWFINDER, .K_RIGHT => some (.zoomModeCallback, .none)
  | .SETTINGS_SIZE, .K_RIGHT => some (.sizeModeCallback, .int 1)
  | .SETTINGS_SIZE, .K_LEFT => some (.sizeModeCallback, .int (-1))
  | .SETTINGS_EFFECT, .K_RIGHT => some (.fxCallback, .int 1)
  | .SETTINGS_EFFECT, .K_LEFT => some (.fxCallback, .int (-1))
  | .SETTINGS_ISO, .K_RIGHT => some (.isoCallback, .int 1)
  | .SETTINGS_ISO, .K_LEFT => some (.isoCallback, .int (-1))
  | .SETTINGS_EV, .K_RIGHT => some (.evCallback, .int 1)
  | .SETTINGS_EV, .K_LEFT => some (.evCallback, .int (-1))
  | .QUIT, .K_RETURN => some (.quitCallback, .none)
  | _, _ => none

/-- The hard-coded global key bindings applied after the controls lookup
(the if/elif chain of the KEYDOWN branch): Down/Up cycle settings, z is
the emergency quit, a returns to the viewfinder (doneCallback). -/
def globalBinding (k : Key) : Option (Cb × PyVal) :=
  match k with
  | .K_DOWN => some (.settingCallback, .int (-1))
  | .K_UP => some (.settingCallback, .int 1)
  | .K_z => some (.quitCallback, .none)
  | .K_a => some (.doneCallback, .none)
  | _ => none

/-- One KEYDOWN event in the main loop: the controls-map callback (if any)
is invoked first, then — independently of the lookup result — the global
binding (if any).  The list collects the invocations in order. -/
def keyDispatch (m : Screen) (k : Key) : List (Cb × PyVal) :=
  (controlsMap m k).toList ++ (globalBinding k).toList

/-- Claim C7: mode-specific and hard-coded global key bindings are applied
independently — when one physical key has both, that single key-down event
fires both actions, the mode-specific one first. -/
theorem C7_key_bindings_independent (m : Screen) (k : Key) (a g : Cb × PyVal)
    (ha : controlsMap m k = some a) (hg : globalBinding k = some g) :
    keyDispatch m k = [a, g] := by
  simp [keyDispatch, ha, hg]

/-- Witness for C7: in VIEWFINDER mode the a key is bound to takePicture
in the controls map and globally to doneCallback; one event fires both. -/
theorem C7_key_bindings_independent_witness :
    controlsMap .VIEWFINDER .K_a = some (.takePicture, .none) ∧
    globalBinding .K_a = some (.doneCallback, .none) ∧
    keyDispatch .VIEWFINDER .K_a = [(.takePicture, .none), (.doneCallback, .none)] :=
  ⟨rfl, rfl, C7_key_bindings_independent .VIEWFINDER .K_a _ _ rfl rfl⟩

/- ----------------------------------------------------------------------
Widget hit-testing (Button.selected) and tap dispatch.
---------------------------------------------------------------------- -/

/-- A Button from cam.py reduced to its dispatch-relevant data: bounding
rect (X, Y, W, H) and the optional callback with its value (None when the
Button was built without one). -/
structure ButtonW where
  rect : Int × Int × Int × Int
  callback : Option Cb := Option.none
  value : PyVal := .none

/-- The hit test inside Button.selected: x1 = rect[0], y1 = rect[1],
x2 = x1 + rect[2] - 1, y2 = y1 + rect[3] - 1, and the position must
satisfy x1 ≤ x ≤ x2 and y1 ≤ y ≤ y2 (both edges inclusive). -/
def ButtonW.hit (b : ButtonW) (pos : Int × Int) : Bool :=
  let x1 := b.rect.1
  let y1 := b.rect.2.1
  let x2 := x1 + b.rect.2.2.1 - 1
  let y2 := y1 + b.rect.2.2.2 - 1
  decide (x1 ≤ pos.1) && decide (pos.1 ≤ x2) &&
    decide (y1 ≤ pos.2) && decide (pos.2 ≤ y2)

/-- Button.selected(pos): on a hit, invoke the callback if bound (with its
value, or with no argument when the value is None) and report True;
otherwise report False.  We return the hit flag together with the list of
invocations performed. -/
def ButtonW.selected (b : ButtonW) (pos : Int × Int) : Bool × List (Cb × PyVal) :=
  if b.hit pos then
    (true, (b.callback.map (fun c => (c, b.value))).toList)
  else
    (false, [])

/-- Modelled from the spec: this version of the source's main loop handles
only KEYDOWN events and never calls Button.selected, so the touchscreen
dispatcher itself is missing from the code; spec section 4.4 requires it
to "iterate the active mode's widgets in registration order and dispatch
to the first whose hit-test succeeds", i.e. stop at the first widget
whose Button.selected (embedded above from the source) reports true.  The
result is the list of callback invocations performed. -/
def dispatchTap (bs : List ButtonW) (pos : Int × Int) : List (Cb × PyVal) :=
  match bs with
  | [] => []
  | b :: rest =>
    let r := b.selected pos
    if r.1 then r.2 else dispatchTap rest pos

/-- Claim C6 (dispatcher modelled from the spec, hit-test from the
source): for a widget list pre ++ A :: mid ++ B :: post of the active
mode where every widget registered before A misses the tap position, A's
rectangle contains it, B — registered after A — also contains it (the tap
lies in the overlap), and both are bound to actions, dispatching the tap
invokes only A's action. -/
theorem C6_first_widget_wins (pre mid post : List ButtonW) (A B : ButtonW)
    (pos : Int × Int) (a b : Cb)
    (hpre : ∀ c ∈ pre, c.hit pos = false)
    (hA : A.hit pos = true) (hAa : A.callback = some a)
    (hB : B.hit pos = true) (hBb : B.callback = some b) :
    dispatchTap (pre ++ A :: mid ++ B :: post) pos = [(a, A.value)] := by
  induction pre with
  | nil =>
    simp [dispatchTap, ButtonW.selected, hA, hAa]
  | cons c cs ih =>
    have hc := hpre c (by simp)
    simp only [List.cons_append, dispatchTap, ButtonW.selected, hc]
    simpa using ih (fun d hd => hpre d (by simp [hd]))

/-- Witness for C6: widget A covers (0,0)–(99,99) and is bound to
imageCallback(1); widget B, registered after A, covers (10,10)–(29,29)
and is bound to deleteCallback(True); a tap at (15,15) — inside the
overlap — invokes only A's action. -/
theorem C6_first_widget_wins_witness :
    (ButtonW.mk (0, 0, 100, 100) (some .imageCallback) (.int 1)).hit (15, 15) = true ∧
    (ButtonW.mk (10, 10, 20, 20) (some .deleteCallback) (.bool true)).hit (15, 15) = true ∧
    dispatchTap [ButtonW.mk (0, 0, 100, 100) (some .imageCallback) (.int 1),
      ButtonW.mk (10, 10, 20, 20) (some .deleteCallback) (.bool true)] (15, 15) =
      [(.imageCallback, .int 1)] :=
  ⟨by decide, by decide,
    C6_first_widget_wins [] [] [] _ _ (15, 15) .imageCallback .deleteCallback
      (by intro c hc; cases hc) (by decide) rfl (by decide) rfl⟩

/- ----------------------------------------------------------------------
imgRange (cam.py; defined twice, identically, at lines 304 and 728): scan
a directory listing for files matching 'IMG_[0-9][0-9][0-9][0-9].JPG' and
track the min and max 4-digit index.  A filename is a list of characters;
the listing is either `.error ()` (os.listdir raised: directory missing
or unreadable — os.listdir materialises the whole list before the loop
body runs) or `.ok files`.  The `finally: return ...` swallows any
in-flight exception and returns the value computed from the untouched
sentinel (min, max) = (9999, 0), so the function always returns. -/

/-- fnmatch's '[0-9]' character class. -/
def isDigitCh (c : Char) : Bool :=
  decide (48 ≤ c.toNat) && decide (c.toNat ≤ 57)

/-- fnmatch.fnmatch(file, 'IMG_[0-9][0-9][0-9][0-9].JPG'). -/
def fnmatchIMG (s : List Char) : Bool :=
  match s with
  | ['I', 'M', 'G', '_', a, b, c, d, '.', 'J', 'P', 'G'] =>
    isDigitCh a && isDigitCh b && isDigitCh c && isDigitCh d
  | _ => false

/-- int(file[4:8]): the 4-digit index of a name (only used on names that
matched the pattern, whose characters 4..7 are digits). -/
def fileIdx (s : List Char) : Nat :=
  match s with
  | _ :: _ :: _ :: _ :: a :: b :: c :: d :: _ =>
    (a.toNat - 48) * 1000 + (b.toNat - 48) * 100 +
      (c.toNat - 48) * 10 + (d.toNat - 48)
  | _ => 0

/-- The loop body of imgRange: on a matching name compare its index with
the running min and max (`if i < min: min = i`, `if i > max: max = i`). -/
def imgRangeFold (acc : Nat × Nat) (s : List Char) : Nat × Nat :=
  if fnmatchIMG s then
    ((if fileIdx s < acc.1 then fileIdx s else acc.1),
     (if fileIdx s > acc.2 then fileIdx s else acc.2))
  else acc

/-- imgRange(path): min = 9999; max = 0; scan the listing; finally return
None if min > max else (min, max). -/
def imgRange (listing : Except Unit (List (List Char))) : Option (Nat × Nat) :=
  let acc :=
    match listing with
    | .error _ => ((9999 : Nat), (0 : Nat))
    | .ok files => files.foldl imgRangeFold (9999, 0)
  if acc.1 > acc.2 then Option.none else some acc

theorem fileIdx_le_of_match (s : List Char) (h : fnmatchIMG s = true) :
    fileIdx s ≤ 9999 := by
  unfold fnmatchIMG at h
  split at h
  · rename_i a b c d
    simp only [isDigitCh, Bool.and_eq_true, decide_eq_true_eq] at h
    show (a.toNat - 48) * 1000 + (b.toNat - 48) * 100 +
      (c.toNat - 48) * 10 + (d.toNat - 48) ≤ 9999
    omega
  · cases h

theorem imgRangeFold_cases (acc : Nat × Nat) (s : List Char) :
    (fnmatchIMG s = false ∧ imgRangeFold acc s = acc) ∨
    (fnmatchIMG s = true ∧
      (imgRangeFold acc s).1 = min (fileIdx s) acc.1 ∧
      (imgRangeFold acc s).2 = max (fileIdx s) acc.2) := by
  by_cases h : fnmatchIMG s = true
  · right
    refine ⟨h, ?_, ?_⟩ <;>
      · simp only [imgRangeFold, h, if_true]
        split_ifs <;> omega
  · left
    exact ⟨bool_ne_true h, by simp [imgRangeFold, bool_ne_true h]⟩

/-- The no-match case of the scan leaves the accumulator untouched. -/
theorem foldl_imgRange_nomatch (files : List (List Char)) (acc : Nat × Nat)
    (h : ∀ s ∈ files, fnmatchIMG s = false) :
    files.foldl imgRangeFold acc = acc := by
  induction files generalizing acc with
  | nil => rfl
  | cons s rest ih =>
    have hs := h s (by simp)
    simp only [List.foldl_cons]
    rw [show imgRangeFold acc s = acc from by simp [imgRangeFold, hs]]
    exact ih acc (fun t ht => h t (by simp [ht]))

/-- Invariant of the imgRange scan, for an arbitrary accumulator: the
result's min only decreases and max only increases, every matching name's
index lies between them, and each of the two is either the accumulator's
value or attained by a matching name. -/
theorem foldl_imgRange_spec (files : List (List Char)) : ∀ acc : Nat × Nat,
    ((files.foldl imgRangeFold acc).1 ≤ acc.1 ∧
      acc.2 ≤ (files.foldl imgRangeFold acc).2) ∧
    (∀ s ∈ files, fnmatchIMG s = true →
      (files.foldl imgRangeFold acc).1 ≤ fileIdx s ∧
      fileIdx s ≤ (files.foldl imgRangeFold acc).2) ∧
    ((files.foldl imgRangeFold acc).1 = acc.1 ∨
      ∃ s ∈ files, fnmatchIMG s = true ∧
        fileIdx s = (files.foldl imgRangeFold acc).1) ∧
    ((files.foldl imgRangeFold acc).2 = acc.2 ∨
      ∃ s ∈ files, fnmatchIMG s = true ∧
        fileIdx s = (files.foldl imgRangeFold acc).2) := by
  induction files with
  | nil =>
    intro acc
    refine ⟨⟨le_rfl, le_rfl⟩, ?_, Or.inl rfl, Or.inl rfl⟩
    intro s hs
    cases hs
  | cons t rest ih =>
    intro acc
    simp only [List.foldl_cons]
    obtain ⟨⟨ih1a, ih1b⟩, ih2, ih3, ih4⟩ := ih (imgRangeFold acc t)
    rcases imgRangeFold_cases acc t with ⟨hm, heq⟩ | ⟨hm, hmin, hmax⟩
    · rw [heq] at ih1a ih1b ih2 ih3 ih4 ⊢
      refine ⟨⟨ih1a, ih1b⟩, ?_, ?_, ?_⟩
      · intro s hs hsm
        rcases List.mem_cons.mp hs with hst | hsr
        · subst hst
          rw [hsm] at hm
          cases hm
        · exact ih2 s hsr hsm
      · rcases ih3 with h | ⟨s, hs, hsm, hse⟩
        · exact Or.inl h
        · exact Or.inr ⟨s, List.mem_cons_of_mem t hs, hsm, hse⟩
      · rcases ih4 with h | ⟨s, hs, hsm, hse⟩
        · exact Or.inl h
        · exact Or.inr ⟨s, List.mem_cons_of_mem t hs, hsm, hse⟩
    · refine ⟨⟨by omega, by omega⟩, ?_, ?_, ?_⟩
      · intro s hs hsm
        rcases List.mem_cons.mp hs with hst | hsr
        · subst hst
          constructor
          · omega
          · omega
        · exact ih2 s hsr hsm
      · rcases ih3 with h | ⟨s, hs, hsm, hse⟩
        · by_cases hcmp : fileIdx t ≤ acc.1
          · exact Or.inr ⟨t, List.mem_cons_self t rest, hm, by omega⟩
          · exact Or.inl (by omega)
        · exact Or.inr ⟨s, List.mem_cons_of_mem t hs, hsm, hse⟩
      · rcases ih4 with h | ⟨s, hs, hsm, hse⟩
        · by_cases hcmp : acc.2 ≤ fileIdx t
          · exact Or.inr ⟨t, List.mem_cons_self t rest, hm, by omega⟩
          · exact Or.inl (by omega)
        · exact Or.inr ⟨s, List.mem_cons_of_mem t hs, hsm, hse⟩

/-- foldl_imgRange_spec at the real starting accumulator (9999, 0). -/
theorem foldl_imgRange_sentinel (files : List (List Char)) :
    (∀ s ∈ files, fnmatchIMG s = true →
      (files.foldl imgRangeFold (9999, 0)).1 ≤ fileIdx s ∧
      fileIdx s ≤ (files.foldl imgRangeFold (9999, 0)).2) ∧
    ((files.foldl imgRangeFold (9999, 0)).1 = 9999 ∨
      ∃ s ∈ files, fnmatchIMG s = true ∧
        fileIdx s = (files.foldl imgRangeFold (9999, 0)).1) ∧
    ((files.foldl imgRangeFold (9999, 0)).2 = 0 ∨
      ∃ s ∈ files, fnmatchIMG s = true ∧
        fileIdx s = (files.foldl imgRangeFold (9999, 0)).2) := by
  obtain ⟨_, h2, h3, h4⟩ := foldl_imgRange_spec files (9999, 0)
  exact ⟨h2, h3, h4⟩

/-- Claim C10: imgRange always returns (the return in its finally clause
swallows any listdir error, modelled by the `.error` listing); it returns
None exactly when no name matching IMG_dddd.JPG is found — in particular
whenever the directory cannot be listed — and otherwise returns the pair
of the minimum and maximum 4-digit indices of the matching names. -/
theorem imgRange_spec_aux (listing : Except Unit (List (List Char))) :
    (imgRange listing = Option.none ↔
      ∀ files, listing = .ok files → ∀ s ∈ files, fnmatchIMG s = false) ∧
    (∀ mn mx, imgRange listing = some (mn, mx) →
      ∃ files, listing = .ok files ∧
        (∃ s ∈ files, fnmatchIMG s = true ∧ fileIdx s = mn) ∧
        (∃ s ∈ files, fnmatchIMG s = true ∧ fileIdx s = mx) ∧
        ∀ s ∈ files, fnmatchIMG s = true → mn ≤ fileIdx s ∧ fileIdx s ≤ mx) := by
  cases listing with
  | error e =>
    constructor
    · constructor
      · intro _ files hf
        cases hf
      · intro _
        rfl
    · intro mn mx h
      simp [imgRange] at h
  | ok files =>
    obtain ⟨h2, h3, h4⟩ := foldl_imgRange_sentinel files
    constructor
    · constructor
      · intro hnone fs hfs s hs
        cases hfs
        by_contra hsm
        have hsm' : fnmatchIMG s = true := by
          cases hx : fnmatchIMG s
          · exact absurd hx hsm
          · rfl
        obtain ⟨hlo, hhi⟩ := h2 s hs hsm'
        simp only [imgRange] at hnone
        split at hnone
        · rename_i hgt
          omega
        · cases hnone
      · intro hnom
        have hfold := foldl_imgRange_nomatch files (9999, 0) (hnom files rfl)
        simp [imgRange, hfold]
    · intro mn mx hsome
      refine ⟨files, rfl, ?_⟩
      simp only [imgRange] at hsome
      split at hsome
      · cases hsome
      · rename_i hle
        have heq : files.foldl imgRangeFold (9999, 0) = (mn, mx) :=
          Option.some_injective _ hsome
        have heq1 : (files.foldl imgRangeFold (9999, 0)).1 = mn := by rw [heq]
        have heq2 : (files.foldl imgRangeFold (9999, 0)).2 = mx := by rw [heq]
        rw [heq1] at h2 h3
        rw [heq2] at h2 h4
        rw [heq1, heq2] at hle
        have hmatch : ∃ s ∈ files, fnmatchIMG s = true := by
          rcases h3 with h3 | ⟨s, hs, hsm, _⟩
          · rcases h4 with h4 | ⟨s, hs, hsm, _⟩
            · omega
            · exact ⟨s, hs, hsm⟩
          · exact ⟨s, hs, hsm⟩
        obtain ⟨s0, hs0, hs0m⟩ := hmatch
        have hb0 := h2 s0 hs0 hs0m
        have hle0 := fileIdx_le_of_match s0 hs0m
        refine ⟨?_, ?_, h2⟩
        · rcases h3 with h3 | h3
          · exact ⟨s0, hs0, hs0m, by omega⟩
          · exact h3
        · rcases h4 with h4 | h4
          · exact ⟨s0, hs0, hs0m, by omega⟩
          · exact h4

/-- Claim C10: imgRange never raises (the return in its finally clause
swallows any listdir/parse error — raising listdir is the `.error`
listing, on which the sentinel (9999, 0) is returned as None); it returns
None if and only if no name matching IMG_dddd.JPG is found — in
particular whenever the directory does not exist or cannot be read — and
otherwise returns the pair (min, max) of the 4-digit indices of the
matching names. -/
theorem C10_imgRange_total_range (listing : Except Unit (List (List Char))) :
    (imgRange listing = Option.none ↔
      ∀ files, listing = .ok files → ∀ s ∈ files, fnmatchIMG s = false) ∧
    (∀ mn mx, imgRange listing = some (mn, mx) →
      ∃ files, listing = .ok files ∧
        (∃ s ∈ files, fnmatchIMG s = true ∧ fileIdx s = mn) ∧
        (∃ s ∈ files, fnmatchIMG s = true ∧ fileIdx s = mx) ∧
        ∀ s ∈ files, fnmatchIMG s = true → mn ≤ fileIdx s ∧ fileIdx s ≤ mx) :=
  imgRange_spec_aux listing

/-- Sample directory listing entries for the C10 witness. -/
def sampleName3 : List Char :=
  ['I', 'M', 'G', '_', '0', '0', '0', '3', '.', 'J', 'P', 'G']

def sampleName7 : List Char :=
  ['I', 'M', 'G', '_', '0', '0', '0', '7', '.', 'J', 'P', 'G']

/-- Witness for C10 on the listing [IMG_0007.JPG, IMG_0003.JPG]: the range
is (3, 7), both endpoints attained and every match inside. -/
theorem C10_imgRange_total_range_witness :
    imgRange (.ok [sampleName7, sampleName3]) = some (3, 7) ∧
    ((∃ s ∈ [sampleName7, sampleName3], fnmatchIMG s = true ∧ fileIdx s = 3) ∧
      (∃ s ∈ [sampleName7, sampleName3], fnmatchIMG s = true ∧ fileIdx s = 7) ∧
      ∀ s ∈ [sampleName7, sampleName3], fnmatchIMG s = true →
        3 ≤ fileIdx s ∧ fileIdx s ≤ 7) := by
  refine ⟨by decide, ?_⟩
  obtain ⟨files, hfe, hp⟩ :=
    (C10_imgRange_total_range (.ok [sampleName7, sampleName3])).2 3 7 (by decide)
  cases hfe
  exact hp

/- ----------------------------------------------------------------------
File names.  Python builds image file names as 'IMG_' + '%04d' % n +
'.JPG'; '%04d' zero-pads the decimal digits to width 4 (a negative value
keeps its sign and pads the digits to total width 4: '%04d' % -1 is
'-001'). -/

/-- Decimal digit characters, most significant first; the recursion is
bounded by a fuel argument (n itself suffices, since n / 10 < n). -/
def natDigitsAux : Nat → Nat → List Char
  | 0, _ => []
  | fuel + 1, n =>
    if n < 10 then [Char.ofNat (48 + n)]
    else natDigitsAux fuel (n / 10) ++ [Char.ofNat (48 + n % 10)]

/-- Decimal digit characters of n, most significant first. -/
def natDigits (n : Nat) : List Char := natDigitsAux (n + 1) n

theorem natDigitsAux_congr : ∀ (f1 f2 n : Nat), n < f1 → n < f2 →
    natDigitsAux f1 n = natDigitsAux f2 n := by
  intro f1
  induction f1 with
  | zero =>
    intro f2 n h
    omega
  | succ f ih =>
    intro f2 n h1 h2
    obtain ⟨g, rfl⟩ : ∃ g, f2 = g + 1 := ⟨f2 - 1, by omega⟩
    show (if n < 10 then _ else _) = (if n < 10 then _ else _)
    by_cases hn : n < 10
    · rw [if_pos hn, if_pos hn]
    · rw [if_neg hn, if_neg hn, ih g (n / 10) (by omega) (by omega)]

/-- Python's '%04d' % i. -/
def pyFmt04 (i : Int) : List Char :=
  if i < 0 then '-' :: List.leftpad 3 '0' (natDigits i.natAbs)
  else List.leftpad 4 '0' (natDigits i.toNat)

/-- The basename 'IMG_' + '%04d' % i + '.JPG' used by showNextImage,
showImage, deleteCallback and takePicture. -/
def imgFileName (i : Int) : List Char :=
  'I' :: 'M' :: 'G' :: '_' :: (pyFmt04 i ++ ['.', 'J', 'P', 'G'])

/-- os.path.exists of an image index, over a directory listing. -/
def fileExists (files : List (List Char)) (i : Int) : Bool :=
  decide (imgFileName i ∈ files)

theorem natDigits_lt10 (n : Nat) (h : n < 10) :
    natDigits n = [Char.ofNat (48 + n)] := by
  show (if n < 10 then _ else _) = _
  rw [if_pos h]

theorem natDigits_step (n : Nat) (h : ¬ n < 10) :
    natDigits n = natDigits (n / 10) ++ [Char.ofNat (48 + n % 10)] := by
  show (if n < 10 then [Char.ofNat (48 + n)]
    else natDigitsAux n (n / 10) ++ [Char.ofNat (48 + n % 10)]) = _
  rw [if_neg h, natDigitsAux_congr n (n / 10 + 1) (n / 10) (by omega) (by omega)]
  rfl

theorem pyFmt04_digits (i : Nat) (h : i ≤ 9999) :
    pyFmt04 (i : Int) =
      [Char.ofNat (48 + i / 1000), Char.ofNat (48 + i / 100 % 10),
       Char.ofNat (48 + i / 10 % 10), Char.ofNat (48 + i % 10)] := by
  have hnn : ¬ ((i : Int) < 0) := by omega
  have htn : ((i : Int)).toNat = i := by omega
  simp only [pyFmt04, hnn, if_false, htn]
  rcases Nat.lt_or_ge i 10 with h1 | h1
  · rw [natDigits_lt10 i h1]
    have e1 : 48 + i / 1000 = 48 := by omega
    have e2 : 48 + i / 100 % 10 = 48 := by omega
    have e3 : 48 + i / 10 % 10 = 48 := by omega
    have e4 : i % 10 = i := by omega
    rw [e1, e2, e3, e4]
    rfl
  · rcases Nat.lt_or_ge i 100 with h2 | h2
    · rw [natDigits_step i (by omega), natDigits_lt10 (i / 10) (by omega)]
      have e1 : 48 + i / 1000 = 48 := by omega
      have e2 : 48 + i / 100 % 10 = 48 := by omega
      have e3 : i / 10 % 10 = i / 10 := by omega
      rw [e1, e2, e3]
      rfl
    · rcases Nat.lt_or_ge i 1000 with h3 | h3
      · rw [natDigits_step i (by omega), natDigits_step (i / 10) (by omega),
          natDigits_lt10 (i / 10 / 10) (by omega)]
        have e1 : 48 + i / 1000 = 48 := by omega
        have e2 : i / 10 / 10 = i / 100 := by omega
        have e3 : i / 100 % 10 = i / 100 := by omega
        rw [e2, e1, e3]
        rfl
      · rw [natDigits_step i (by omega), natDigits_step (i / 10) (by omega),
          natDigits_step (i / 10 / 10) (by omega),
          natDigits_lt10 (i / 10 / 10 / 10) (by omega)]
        have e1 : i / 10 / 10 / 10 = i / 1000 := by omega
        have e2 : i / 10 / 10 % 10 = i / 100 % 10 := by omega
        rw [e1, e2]
        rfl

/-- A name matching the pattern is exactly the canonical name generated
from its parsed index, which is at most 9999. -/
theorem match_eq_imgFileName (s : List Char) (h : fnmatchIMG s = true) :
    s = imgFileName ((fileIdx s : Nat) : Int) ∧ fileIdx s ≤ 9999 := by
  refine ⟨?_, fileIdx_le_of_match s h⟩
  unfold fnmatchIMG at h
  split at h
  · rename_i a b c d
    simp only [isDigitCh, Bool.and_eq_true, decide_eq_true_eq] at h
    obtain ⟨⟨⟨ha, hb⟩, hc⟩, hd⟩ := h
    have hfi : fileIdx ['I', 'M', 'G', '_', a, b, c, d, '.', 'J', 'P', 'G'] =
        (a.toNat - 48) * 1000 + (b.toNat - 48) * 100 +
          (c.toNat - 48) * 10 + (d.toNat - 48) := rfl
    rw [hfi]
    unfold imgFileName
    rw [pyFmt04_digits _ (by omega)]
    have ea : 48 + ((a.toNat - 48) * 1000 + (b.toNat - 48) * 100 +
        (c.toNat - 48) * 10 + (d.toNat - 48)) / 1000 = a.toNat := by omega
    have eb : 48 + ((a.toNat - 48) * 1000 + (b.toNat - 48) * 100 +
        (c.toNat - 48) * 10 + (d.toNat - 48)) / 100 % 10 = b.toNat := by omega
    have ec : 48 + ((a.toNat - 48) * 1000 + (b.toNat - 48) * 100 +
        (c.toNat - 48) * 10 + (d.toNat - 48)) / 10 % 10 = c.toNat := by omega
    have ed : 48 + ((a.toNat - 48) * 1000 + (b.toNat - 48) * 100 +
        (c.toNat - 48) * 10 + (d.toNat - 48)) % 10 = d.toNat := by omega
    rw [ea, eb, ec, ed, Char.ofNat_toNat, Char.ofNat_toNat,
      Char.ofNat_toNat, Char.ofNat_toNat]
    rfl
  · cases h

/- ----------------------------------------------------------------------
deleteCallback (cam.py).  The active storage directory's contents are the
listing L.  os.remove raises FileNotFoundError when the target name is
absent (`.error ()`; nothing in cam.py catches it, so it propagates out
of the dispatcher); on success the name disappears from the listing.
showNextImage(-1) — reached when images remain after the deletion — is
the backward wrapping search from loadIdx; a non-exiting search loop has
no successor state and is modelled as `.error ()` as well (the branch
condition imgRange ≠ None rules that case out, see imgRange_some_fileExists).
The `if not screen: return` guard at the top of deleteCallback is passed
once the display is initialised, the case the claim is about.
---------------------------------------------------------------------- -/

/-- os.remove(pathData[storeMode] + '/IMG_' + '%04d' % loadIdx + '.JPG'). -/
def osRemove (L : List (List Char)) (i : Int) : Except Unit (List (List Char)) :=
  if imgFileName i ∈ L then .ok (L.erase (imgFileName i)) else .error ()

/-- showImage(n)'s assignments: loadIdx := n, scaled := the loaded image,
screenMode := VIEW, screenModePrior := REFRESH. -/
def showImageS (n : Int) (s : AppState) : AppState :=
  { s with
    loadIdx := n
    scaled := true
    screenMode := Screen.VIEW
    screenModePrior := Screen.REFRESH }

/-- showNextImage(direction)'s state effect over listing L: run the search
from loadIdx and call showImage where it breaks; a never-exiting loop has
no successor state. -/
def showNextImageS (L : List (List Char)) (direction : Int) (s : AppState) :
    Except Unit AppState :=
  match searchLoop (fileExists L) direction s.loadIdx 10000 with
  | some n => .ok (showImageS n s)
  | Option.none => .error ()

/-- deleteCallback(n) from cam.py: set screenMode := VIEW with a forced
refresh; if n is True remove the loaded image's file (may raise), rescan,
and either show the previous image or switch to NO_IMG clearing the
image and the cursor. -/
def deleteCallbackS (L : List (List Char)) (n : Bool) (s : AppState) :
    Except Unit (AppState × List (List Char)) :=
  let s2 := { s with screenMode := Screen.VIEW, screenModePrior := Screen.REFRESH }
  if n then
    match osRemove L s2.loadIdx with
    | .error e => .error e
    | .ok L2 =>
      match imgRange (.ok L2) with
      | some _ =>
        match showNextImageS L2 (-1) s2 with
        | .error e => .error e
        | .ok s3 => .ok (s3, L2)
      | Option.none =>
        .ok ({ s2 with
          screenMode := Screen.NO_IMG
          scaled := false
          loadIdx := -1 }, L2)
  else
    .ok (s2, L)

/-- When a scan finds images, some index in 0..9999 exists by name. -/
theorem imgRange_some_fileExists (L : List (List Char)) (mn mx : Nat)
    (h : imgRange (.ok L) = some (mn, mx)) :
    ∃ i : Nat, i ≤ 9999 ∧ fileExists L (i : Int) = true := by
  obtain ⟨files, hfe, hmn, _, _⟩ := (imgRange_spec_aux (.ok L)).2 mn mx h
  cases hfe
  obtain ⟨t, ht, htm, hti⟩ := hmn
  obtain ⟨hname, hle⟩ := match_eq_imgFileName t htm
  refine ⟨fileIdx t, hle, ?_⟩
  unfold fileExists
  rw [← hname]
  simpa using ht

/-- A playback state for the C4 counterexample: viewing image 5. -/
def viewingState5 : AppState :=
  { initState with screenMode := .VIEW, loadIdx := 5, scaled := true }

/-- Counterexample to C4 as stated: deleteCallback(True) with nothing to
delete (empty directory) does not "simply return to View mode": os.remove
raises and the exception propagates uncaught out of the callback. -/
theorem C4_counterexample :
    deleteCallbackS [] true viewingState5 = .error () ∧
    ∀ st : AppState, ∀ L2 : List (List Char),
      deleteCallbackS [] true viewingState5 ≠ .ok (st, L2) := by
  constructor
  · rfl
  · intro st L2 h
    rw [show deleteCallbackS [] true viewingState5 = .error () from rfl] at h
    cases h

/-- Claim C4 amended: after display initialisation,
(i) deleteCallback(False) simply returns to View mode (forced refresh),
changing nothing else;
(ii) deleteCallback(True) when the loaded image file exists deletes it
and re-scans the directory — if any images remain the previous one is
loaded (backward wrapping search via showNextImage(-1), which sets the
load cursor);
(iii) if none remain, the mode becomes NoImage, the in-memory image is
cleared and the load cursor is set to the -1 sentinel;
(iv) but deleteCallback(True) with nothing to delete does NOT simply
return to View mode: os.remove raises and the exception propagates out
of the callback uncaught (mode already switched to View). -/
theorem C4_deleteCallback_branches (L : List (List Char)) (s : AppState) :
    (deleteCallbackS L false s =
      .ok ({ s with screenMode := .VIEW, screenModePrior := .REFRESH }, L)) ∧
    (0 ≤ s.loadIdx → s.loadIdx ≤ 9999 → imgFileName s.loadIdx ∈ L →
      (∀ mn mx,
        imgRange (.ok (L.erase (imgFileName s.loadIdx))) = some (mn, mx) →
        ∃ r : Int,
          searchLoop (fileExists (L.erase (imgFileName s.loadIdx))) (-1)
            s.loadIdx 10000 = some r ∧
          deleteCallbackS L true s =
            .ok (showImageS r
              { s with screenMode := .VIEW, screenModePrior := .REFRESH },
              L.erase (imgFileName s.loadIdx))) ∧
      (imgRange (.ok (L.erase (imgFileName s.loadIdx))) = Option.none →
        deleteCallbackS L true s =
          .ok ({ s with
            screenMode := .NO_IMG
            screenModePrior := .REFRESH
            scaled := false
            loadIdx := -1 },
            L.erase (imgFileName s.loadIdx)))) ∧
    (imgFileName s.loadIdx ∉ L → deleteCallbackS L true s = .error ()) := by
  refine ⟨rfl, ?_, ?_⟩
  · intro h0 h1 hmem
    have hrem : osRemove L s.loadIdx = .ok (L.erase (imgFileName s.loadIdx)) := by
      unfold osRemove
      rw [if_pos hmem]
    constructor
    · intro mn mx hsome
      obtain ⟨i, hile, hifx⟩ := imgRange_some_fileExists _ mn mx hsome
      obtain ⟨r, hrle, hrun, _⟩ :=
        searchBack_spec (fileExists (L.erase (imgFileName s.loadIdx)))
          s.loadIdx.toNat (by omega) ⟨i, hile, hifx⟩
      have hcast : ((s.loadIdx.toNat : Nat) : Int) = s.loadIdx := by omega
      rw [hcast] at hrun
      refine ⟨r, hrun, ?_⟩
      simp only [deleteCallbackS, showNextImageS, if_true, hrem, hsome, hrun]
    · intro hnone
      simp only [deleteCallbackS, if_true, hrem, hnone]
  · intro hmem
    have hrem : osRemove L s.loadIdx = .error () := by
      unfold osRemove
      rw [if_neg hmem]
    simp only [deleteCallbackS, if_true, hrem]

/-- A third sample name for the C4 witness. -/
def sampleName5 : List Char :=
  ['I', 'M', 'G', '_', '0', '0', '0', '5', '.', 'J', 'P', 'G']

/-- Witness for C4: deleting IMG_0005.JPG while viewing index 5 in the
directory [IMG_0005.JPG, IMG_0003.JPG] leaves IMG_0003.JPG, and the
previous image (index 3) is loaded. -/
theorem C4_deleteCallback_branches_witness :
    ((0 : Int) ≤ viewingState5.loadIdx ∧ viewingState5.loadIdx ≤ 9999 ∧
      imgFileName viewingState5.loadIdx ∈ [sampleName5, sampleName3] ∧
      imgRange (.ok (([sampleName5, sampleName3] : List (List Char)).erase
        (imgFileName viewingState5.loadIdx))) = some (3, 3)) ∧
    ∃ r : Int,
      searchLoop (fileExists (([sampleName5, sampleName3] : List (List Char)).erase
          (imgFileName viewingState5.loadIdx))) (-1)
        viewingState5.loadIdx 10000 = some r ∧
      deleteCallbackS [sampleName5, sampleName3] true viewingState5 =
        .ok (showImageS r { viewingState5 with
            screenMode := .VIEW
            screenModePrior := .REFRESH },
          ([sampleName5, sampleName3] : List (List Char)).erase
            (imgFileName viewingState5.loadIdx)) :=
  ⟨⟨by decide, by decide, by decide, by decide⟩,
    ((C4_deleteCallback_branches [sampleName5, sampleName3] viewingState5).2.1
      (by decide) (by decide) (by decide)).1 3 3 (by decide)⟩

/- ----------------------------------------------------------------------
Settings persistence (saveSettings / loadSettings, cam.py).  pickle
round-trips the saved dict verbatim; the claim is about the in-memory
index state, so the five indices are the model state.  Button objects are
Python lists of fixed lengths (7 entries on the storage and size screens,
6 on the effect screen) and the data tables have fixed lengths (fxData
17, isoData 8, sizeData 3, evData 17); indexing them raises IndexError
outside the Python-index range -len..len-1, which the guards below
mirror. -/

/-- The five in-memory setting indices. -/
structure Settings where
  fx : Int
  iso : Int
  size : Int
  store : Int
  ev : Int
deriving DecidableEq, Repr

/-- Compiled-in defaults of a fresh process (fxMode = isoMode = sizeMode =
storeMode = evMode = 0). -/
def defaultSettings : Settings := ⟨0, 0, 0, 0, 0⟩

/-- The dict pickled by saveSettings: keys fx, iso, size, store, ev. -/
structure SettingsDict where
  fx : Int
  iso : Int
  size : Int
  store : Int
  ev : Int
deriving DecidableEq, Repr

/-- saveSettings on its successful path: pickle the five current indices. -/
def saveSettings (st : Settings) : SettingsDict :=
  ⟨st.fx, st.iso, st.size, st.store, st.ev⟩

/-- setFxMode: fxMode = n, then setBg('fx-' + fxData[fxMode]); the lookup
raises IndexError unless -17 ≤ n ≤ 16 (fxData has 17 entries and Python
accepts negative indices).  Second component: whether it raised. -/
def setFxModeL (st : Settings) (n : Int) : Settings × Bool :=
  let st := { st with fx := n }
  (st, !(decide (-17 ≤ n ∧ n ≤ 16)))

/-- setIsoMode: its internal try/except swallows every exception, and its
first statement assigns isoMode = n (see setIsoMode above). -/
def setIsoModeL (st : Settings) (n : Int) : Settings :=
  { st with iso := n }

/-- setSizeModeAndButtons: setBg on buttons[SETTINGS_SIZE][sizeMode + 3]
(7-entry list: raises unless -10 ≤ old sizeMode ≤ 3, before assigning),
then sizeMode = n, then setBg on buttons[n + 3] (same bound on n). -/
def setSizeModeAndButtonsL (st : Settings) (n : Int) : Settings × Bool :=
  if -10 ≤ st.size ∧ st.size ≤ 3 then
    ({ st with size := n }, !(decide (-10 ≤ n ∧ n ≤ 3)))
  else
    (st, true)

/-- storeModeCallback: setBg on buttons[SETTINGS_STORAGE][storeMode + 3]
(raises unless -10 ≤ old storeMode ≤ 3), then storeMode += n and
storeMode %= len(sizeData) = 3, then setBg on the new radio (index now in
3..5, always valid). -/
def storeModeCallbackL (st : Settings) (n : Int) : Settings × Bool :=
  if -10 ≤ st.store ∧ st.store ≤ 3 then
    ({ st with store := (st.store + n).emod 3 }, false)
  else
    (st, true)

/-- setEvMode: like setIsoMode, never lets an exception escape and assigns
evMode = n first. -/
def setEvModeL (st : Settings) (n : Int) : Settings :=
  { st with ev := n }

/-- loadSettings from an unpickled dict (all five keys are present when it
came from saveSettings): apply the setters in source order; an uncaught
exception aborts the remaining assignments (the outer except swallows
it), keeping the state reached so far. -/
def loadSettings (d : SettingsDict) (st : Settings) : Settings :=
  let r1 := setFxModeL st d.fx
  if r1.2 then r1.1 else
  let st1 := setIsoModeL r1.1 d.iso
  let r2 := setSizeModeAndButtonsL st1 d.size
  if r2.2 then r2.1 else
  let r3 := storeModeCallbackL r2.1 d.store
  if r3.2 then r3.1 else
  setEvModeL r3.1 d.ev

/-- Claim C9: for every tuple of in-range setting indices, saving and then
loading in a fresh process (all indices at their compiled-in default 0)
restores identical in-memory indices.  (storeModeCallback adds its
argument to the current storeMode mod 3; from the fresh default 0 this
reproduces the saved value.) -/
theorem C9_settings_roundtrip (st : Settings)
    (hfx : 0 ≤ st.fx ∧ st.fx ≤ 16) (hiso : 0 ≤ st.iso ∧ st.iso ≤ 7)
    (hsize : 0 ≤ st.size ∧ st.size ≤ 2) (hstore : 0 ≤ st.store ∧ st.store ≤ 2)
    (hev : 0 ≤ st.ev ∧ st.ev ≤ 16) :
    loadSettings (saveSettings st) defaultSettings = st := by
  have hp1 : (-17 ≤ st.fx ∧ st.fx ≤ 16) := by omega
  have hp2 : (-10 ≤ st.size ∧ st.size ≤ 3) := by omega
  have hp3 : st.store.emod 3 = st.store := Int.emod_eq_of_lt hstore.1 (by omega)
  simp [loadSettings, saveSettings, setFxModeL, setIsoModeL,
    setSizeModeAndButtonsL, storeModeCallbackL, setEvModeL, defaultSettings,
    hp1, hp2, hp3]

/-- Witness for C9 at the tuple (fx, iso, size, store, ev) = (1, 2, 1, 2, 3). -/
theorem C9_settings_roundtrip_witness :
    ((0 : Int) ≤ (1 : Int) ∧ (1 : Int) ≤ 16) ∧
    loadSettings (saveSettings ⟨1, 2, 1, 2, 3⟩) defaultSettings = ⟨1, 2, 1, 2, 3⟩ :=
  ⟨by decide, C9_settings_roundtrip ⟨1, 2, 1, 2, 3⟩ (by decide) (by decide)
    (by decide) (by decide) (by decide)⟩

/- ----------------------------------------------------------------------
The dispatch engine as a transition system (for the Refresh-sentinel
invariant).  Events are the callback invocations the main loop can make
(from key bindings or taps), the spinner thread's completion, and the
end-of-iteration redraw bookkeeping.  Each event carries the external
nondeterminism it depends on: the current directory listing L of
pathData[storeMode] and whether the fallible camera/filesystem
collaborators succeed.  `.error ()` means no successor state: either an
uncaught Python exception aborts the program (quitCallback's SystemExit,
capture failures, out-of-range indexing) or the source loop diverges
(the wrapping searches finding nothing). -/

/-- isoCallback(n): setIsoMode((isoMode + n) % len(isoData)), isoData has
8 entries. -/
def isoCallbackS (cam : CamApply) (n : Int) (s : AppState) : AppState :=
  { s with isoMode := (setIsoMode cam s.isoMode ((s.isoMode + n).emod 8)).1 }

/-- evCallback(n): setEvMode((evMode + n) % len(evData)), evData has 17
entries. -/
def evCallbackS (cam : CamApply) (n : Int) (s : AppState) : AppState :=
  { s with evMode := (setEvMode cam s.evMode ((s.evMode + n).emod 17)).1 }

/-- fxCallback(n): setFxMode((fxMode + n) % len(fxData)); fxData has 17
entries, and the reduced index is always a valid index, so the setBg
lookup cannot raise here. -/
def fxCallbackS (n : Int) (s : AppState) : AppState :=
  { s with fxMode := (s.fxMode + n).emod 17 }

/-- sizeModeCallback(n): setSizeMode((sizeMode + n) % len(sizeData) = 3),
which runs setSizeModeAndButtons (old-index setBg raises outside
-10..3) and then reconfigures the camera. -/
def sizeModeCallbackS (n : Int) (s : AppState) : Except Unit AppState :=
  if -10 ≤ s.sizeMode ∧ s.sizeMode ≤ 3 then
    .ok { s with sizeMode := (s.sizeMode + n).emod 3 }
  else
    .error ()

/-- storeModeCallback(n) on the full state (see storeModeCallbackL). -/
def storeModeCallbackS (n : Int) (s : AppState) : Except Unit AppState :=
  if -10 ≤ s.storeMode ∧ s.storeMode ≤ 3 then
    .ok { s with storeMode := (s.storeMode + n).emod 3 }
  else
    .error ()

/-- zoomModeCallback: toggle the zoom mode (and apply the camera crop). -/
def zoomModeCallbackS (s : AppState) : AppState :=
  { s with zoomed := !s.zoomed }

/-- The free-slot scan of takePicture: while os.path.isfile(filename):
saveIdx += 1; if saveIdx > 9999: saveIdx = 0 — breaking with the current
saveIdx at the first free slot (fuel-indexed like searchLoop). -/
def slotScan (L : List (List Char)) (i : Int) : Nat → Option Int
  | 0 => Option.none
  | fuel + 1 =>
    if !(fileExists L i) then some i
    else slotScan L (if i + 1 > 9999 then 0 else i + 1) fuel

/-- The storage-switch bookkeeping at the top of takePicture: on a fresh
storage directory re-derive saveIdx from the scan (last index + 1,
wrapped past 9999 to 0, or 1 when empty) and record the storage mode. -/
def takeSaveIdx (L : List (List Char)) (s : AppState) : AppState :=
  if s.storeMode ≠ s.storeModePrior then
    match imgRange (.ok L) with
    | Option.none => { s with saveIdx := 1, storeModePrior := s.storeMode }
    | some r =>
      { s with
        saveIdx := if ((r.2 : Nat) : Int) + 1 > 9999 then 0
          else ((r.2 : Nat) : Int) + 1
        storeModePrior := s.storeMode }
  else s

/-- takePicture from cam.py: ensure the storage directory exists (a failed
makedirs prints and returns, state unchanged — dirOk false); on a storage
switch re-derive saveIdx (takeSaveIdx); scan forward for a free slot;
capture (captureOk false: the exception propagates after the finally
clause — no successor); on success the new image is memory-resident and
loadIdx = saveIdx. -/
def takePictureS (L : List (List Char)) (dirOk captureOk : Bool)
    (s : AppState) : Except Unit AppState :=
  if !dirOk then .ok s
  else
    match slotScan L (takeSaveIdx L s).saveIdx 10000 with
    | Option.none => .error ()
    | some idx =>
      if captureOk then
        .ok { takeSaveIdx L s with
          saveIdx := idx
          scaled := true
          loadIdx := idx }
      else
        .error ()

/-- viewCallback(n) from cam.py: 0 = gear icon (switch to the last-used
settings mode, Screen(settingMode) — a ValueError if the value names no
member), 1 = play icon (resume the resident image, else show the last
image of the directory, else NO_IMG), anything else = shutter. -/
def viewCallbackS (n : Int) (L : List (List Char)) (dirOk captureOk : Bool)
    (s : AppState) : Except Unit AppState :=
  if n = 0 then
    match Screen.ofValue s.settingMode with
    | some m => .ok { s with screenMode := m }
    | Option.none => .error ()
  else if n = 1 then
    if s.scaled then
      .ok { s with
        loadIdx := s.saveIdx
        screenMode := .VIEW
        screenModePrior := .REFRESH }
    else
      match imgRange (.ok L) with
      | some r => .ok (showImageS ((r.2 : Nat) : Int) s)
      | Option.none => .ok { s with screenMode := .NO_IMG }
  else
    takePictureS L dirOk captureOk s

/-- imageCallback(n): 0 switches to the delete confirmation, otherwise
show the next (+1) or previous (-1) image. -/
def imageCallbackS (n : Int) (L : List (List Char)) (s : AppState) :
    Except Unit AppState :=
  if n = 0 then .ok { s with screenMode := .DELETE }
  else showNextImageS L n s

/-- doneCallback: screens past the viewfinder persist themselves as the
last-used settings mode (and save settings); then back to the
viewfinder. -/
def doneCallbackS (s : AppState) : AppState :=
  let s1 :=
    if s.screenMode.value > 3 then { s with settingMode := s.screenMode.value }
    else s
  { s1 with screenMode := .VIEWFINDER }

/-- One dispatch-engine event (see the section comment). -/
inductive Event where
  | settingKey (n : Int)
  | isoKey (cam : CamApply) (n : Int)
  | evKey (cam : CamApply) (n : Int)
  | fxKey (n : Int)
  | sizeKey (n : Int)
  | storeKey (n : Int)
  | zoomKey
  | viewTap (n : Int) (L : List (List Char)) (dirOk captureOk : Bool)
  | imageTap (n : Int) (L : List (List Char))
  | deleteTap (b : Bool) (L : List (List Char))
  | doneKey
  | quitKey
  | spinnerDone
  | redraw

/-- The per-event state transition of the dispatch engine.  quitCallback
raises SystemExit (terminal); the spinner's completion forces a refresh
by writing the REFRESH sentinel into screenModePrior; the end of a main
loop iteration records the drawn mode in screenModePrior. -/
def step (s : AppState) (e : Event) : Except Unit AppState :=
  match e with
  | .settingKey n => .ok (settingCallback n s)
  | .isoKey cam n => .ok (isoCallbackS cam n s)
  | .evKey cam n => .ok (evCallbackS cam n s)
  | .fxKey n => .ok (fxCallbackS n s)
  | .sizeKey n => sizeModeCallbackS n s
  | .storeKey n => storeModeCallbackS n s
  | .zoomKey => .ok (zoomModeCallbackS s)
  | .viewTap n L dirOk captureOk => viewCallbackS n L dirOk captureOk s
  | .imageTap n L => imageCallbackS n L s
  | .deleteTap b L => (deleteCallbackS L b s).map (fun x => x.1)
  | .doneKey => .ok (doneCallbackS s)
  | .quitKey => .error ()
  | .spinnerDone => .ok { s with screenModePrior := .REFRESH }
  | .redraw => .ok { s with screenModePrior := s.screenMode }

/-- States of the dispatch engine reachable from the startup state. -/
inductive Reachable : AppState → Prop where
  | init : Reachable initState
  | step (s : AppState) (e : Event) (s2 : AppState) :
      Reachable s → step s e = .ok s2 → Reachable s2

/-- The inductive invariant: the current mode is a real screen (never the
REFRESH sentinel) and the last-used settings mode is one of the settings
screens' values 4..9. -/
def GoodMode (s : AppState) : Prop :=
  s.screenMode ≠ Screen.REFRESH ∧ 4 ≤ s.settingMode ∧ s.settingMode ≤ 9

theorem settingCallback_screenMode (n : Int) (s : AppState) :
    (settingCallback n s).screenMode = s.screenMode ∨
      (settingCallback n s).screenMode ∈ acceptableModes := by
  unfold settingCallback
  split_ifs with h
  · right
    exact List.get_mem _ _ _
  · left
    rfl

theorem settingCallback_settingMode (n : Int) (s : AppState) :
    (settingCallback n s).settingMode = s.settingMode := by
  unfold settingCallback
  split_ifs <;> rfl

theorem acceptable_ne_refresh : ∀ m ∈ acceptableModes, m ≠ Screen.REFRESH := by
  decide

theorem ofValue_ne_refresh (v : Int) (h4 : 4 ≤ v) (h9 : v ≤ 9) (m : Screen)
    (hm : Screen.ofValue v = some m) : m ≠ Screen.REFRESH := by
  interval_cases v <;> simp_all [Screen.ofValue] <;> subst hm <;> decide

theorem value_gt3 (m : Screen) (h : m.value > 3) : 4 ≤ m.value ∧ m.value ≤ 9 := by
  cases m <;> simp [Screen.value] at h ⊢ <;> omega

theorem takeSaveIdx_modes (L : List (List Char)) (s : AppState) :
    (takeSaveIdx L s).screenMode = s.screenMode ∧
    (takeSaveIdx L s).settingMode = s.settingMode := by
  unfold takeSaveIdx
  split
  · split <;> exact ⟨rfl, rfl⟩
  · exact ⟨rfl, rfl⟩

theorem takePictureS_modes (L : List (List Char)) (dirOk captureOk : Bool)
    (s s2 : AppState) (h : takePictureS L dirOk captureOk s = .ok s2) :
    s2.screenMode = s.screenMode ∧ s2.settingMode = s.settingMode := by
  unfold takePictureS at h
  split at h
  · cases h
    exact ⟨rfl, rfl⟩
  · split at h
    · cases h
    · split at h
      · cases h
        exact ⟨(takeSaveIdx_modes L s).1, (takeSaveIdx_modes L s).2⟩
      · cases h

theorem showNextImageS_modes (L : List (List Char)) (d : Int)
    (s s2 : AppState) (h : showNextImageS L d s = .ok s2) :
    s2.screenMode = Screen.VIEW ∧ s2.settingMode = s.settingMode := by
  unfold showNextImageS at h
  split at h
  · cases h
    exact ⟨rfl, rfl⟩
  · cases h

theorem deleteCallbackS_modes (L : List (List Char)) (b : Bool)
    (s : AppState) (x : AppState × List (List Char))
    (h : deleteCallbackS L b s = .ok x) :
    (x.1.screenMode = Screen.VIEW ∨ x.1.screenMode = Screen.NO_IMG) ∧
    x.1.settingMode = s.settingMode := by
  cases b with
  | false =>
    cases h
    exact ⟨Or.inl rfl, rfl⟩
  | true =>
    simp only [deleteCallbackS, if_true] at h
    split at h
    · cases h
    · rename_i L2 hL2
      split at h
      · split at h
        · cases h
        · rename_i s3 hshow
          cases h
          obtain ⟨hv, hsm⟩ := showNextImageS_modes L2 (-1) _ s3 hshow
          exact ⟨Or.inl hv, hsm⟩
      · cases h
        exact ⟨Or.inr rfl, rfl⟩

theorem imageCallbackS_modes (n : Int) (L : List (List Char))
    (s s2 : AppState) (h : imageCallbackS n L s = .ok s2) :
    (s2.screenMode = Screen.DELETE ∨ s2.screenMode = Screen.VIEW) ∧
    s2.settingMode = s.settingMode := by
  unfold imageCallbackS at h
  split at h
  · cases h
    exact ⟨Or.inl rfl, rfl⟩
  · obtain ⟨hv, hsm⟩ := showNextImageS_modes L n s s2 h
    exact ⟨Or.inr hv, hsm⟩

theorem step_good (s : AppState) (e : Event) (s2 : AppState)
    (hg : GoodMode s) (h : step s e = .ok s2) : GoodMode s2 := by
  obtain ⟨hm, h4, h9⟩ := hg
  cases e with
  | settingKey n =>
    cases h
    refine ⟨?_, ?_⟩
    · rcases settingCallback_screenMode n s with hc | hc
      · rw [hc]
        exact hm
      · exact acceptable_ne_refresh _ hc
    · rw [settingCallback_settingMode]
      exact ⟨h4, h9⟩
  | isoKey cam n =>
    cases h
    exact ⟨hm, h4, h9⟩
  | evKey cam n =>
    cases h
    exact ⟨hm, h4, h9⟩
  | fxKey n =>
    cases h
    exact ⟨hm, h4, h9⟩
  | sizeKey n =>
    have h2 : sizeModeCallbackS n s = .ok s2 := h
    unfold sizeModeCallbackS at h2
    split at h2
    · cases h2
      exact ⟨hm, h4, h9⟩
    · cases h2
  | storeKey n =>
    have h2 : storeModeCallbackS n s = .ok s2 := h
    unfold storeModeCallbackS at h2
    split at h2
    · cases h2
      exact ⟨hm, h4, h9⟩
    · cases h2
  | zoomKey =>
    cases h
    exact ⟨hm, h4, h9⟩
  | viewTap n L dirOk captureOk =>
    have h2 : viewCallbackS n L dirOk captureOk s = .ok s2 := h
    unfold viewCallbackS at h2
    split at h2
    · split at h2
      · rename_i m hofv
        cases h2
        exact ⟨ofValue_ne_refresh s.settingMode h4 h9 m hofv, h4, h9⟩
      · cases h2
    · split at h2
      · split at h2
        · cases h2
          refine ⟨?_, h4, h9⟩
          show Screen.VIEW ≠ Screen.REFRESH
          decide
        · split at h2
          · cases h2
            refine ⟨?_, h4, h9⟩
            show Screen.VIEW ≠ Screen.REFRESH
            decide
          · cases h2
            refine ⟨?_, h4, h9⟩
            show Screen.NO_IMG ≠ Screen.REFRESH
            decide
      · obtain ⟨hsc, hst⟩ := takePictureS_modes L dirOk captureOk s s2 h2
        refine ⟨?_, ?_, ?_⟩
        · rw [hsc]
          exact hm
        · rw [hst]
          exact h4
        · rw [hst]
          exact h9
  | imageTap n L =>
    have h2 : imageCallbackS n L s = .ok s2 := h
    obtain ⟨hsc, hst⟩ := imageCallbackS_modes n L s s2 h2
    refine ⟨?_, ?_, ?_⟩
    · rcases hsc with hc | hc <;> rw [hc] <;> decide
    · rw [hst]
      exact h4
    · rw [hst]
      exact h9
  | deleteTap b L =>
    simp only [step] at h
    cases hd : deleteCallbackS L b s with
    | error e2 =>
      rw [hd] at h
      cases h
    | ok x =>
      rw [hd] at h
      cases h
      obtain ⟨hsc, hst⟩ := deleteCallbackS_modes L b s x hd
      show GoodMode x.1
      refine ⟨?_, ?_, ?_⟩
      · rcases hsc with hc | hc <;> rw [hc] <;> decide
      · rw [hst]
        exact h4
      · rw [hst]
        exact h9
  | doneKey =>
    cases h
    refine ⟨?_, ?_, ?_⟩
    · show Screen.VIEWFINDER ≠ Screen.REFRESH
      decide
    · show 4 ≤ (if s.screenMode.value > 3
        then { s with settingMode := s.screenMode.value } else s).settingMode
      split_ifs with hv
      · exact (value_gt3 _ hv).1
      · exact h4
    · show (if s.screenMode.value > 3
        then { s with settingMode := s.screenMode.value } else s).settingMode ≤ 9
      split_ifs with hv
      · exact (value_gt3 _ hv).2
      · exact h9
  | quitKey =>
    cases h
  | spinnerDone =>
    cases h
    exact ⟨hm, h4, h9⟩
  | redraw =>
    cases h
    exact ⟨hm, h4, h9⟩

theorem reachable_good (s : AppState) (h : Reachable s) : GoodMode s := by
  induction h with
  | init => exact ⟨by decide, by decide, by decide⟩
  | step s e s2 hr hs ih => exact step_good s e s2 ih hs

/-- Claim C8: over every reachable state of the dispatch engine, the
REFRESH sentinel never appears as the current screen mode (screenMode);
the events that use it (spinner completion, showImage, viewCallback's
resume, deleteCallback) assign it only to the prior-mode tracker
screenModePrior, where it forces a redraw on the next loop pass. -/
theorem C8_refresh_sentinel_invariant (s : AppState) (h : Reachable s) :
    s.screenMode ≠ Screen.REFRESH :=
  (reachable_good s h).1

/-- Witness for C8 at the startup state. -/
theorem C8_refresh_sentinel_invariant_witness :
    Reachable initState ∧ initState.screenMode ≠ Screen.REFRESH :=
  ⟨Reachable.init, C8_refresh_sentinel_invariant initState Reachable.init⟩

end Joycam
